import Mathlib

/-!
Shallow embedding of the chatbot agent core (src/agent.py, src/memory.py,
src/rag.py, src/tools.py) and verification of the spec's claims about it.

Python strings are modelled as `List Char` (`PyStr`), Python `int` as `Int`
where a signature accepts arbitrary integers, dictionaries as insertion-ordered
association lists with overwrite-in-place semantics, raised exceptions as
`Except`, and floats produced by `overlap / union` as `ℚ`.
-/

/-- Python strings, modelled as character lists. -/
abbrev PyStr := List Char

/-- String-keyed dictionary with insertion order, as in Python 3.7+. -/
abbrev PyDict (V : Type) := List (PyStr × V)

/-- `d[k] = v` on a Python dict: overwrite in place if the key exists
(keeping its position), else append. -/
def dictInsert {V : Type} (d : PyDict V) (k : PyStr) (v : V) : PyDict V :=
  if d.any (fun p => decide (p.1 = k)) then
    d.map (fun p => if p.1 = k then (k, v) else p)
  else d ++ [(k, v)]

/-- `d.get(k)` / `k in d` support: first (hence only) binding of `k`. -/
def dictGet {V : Type} (d : PyDict V) (k : PyStr) : Option V :=
  (d.find? (fun p => decide (p.1 = k))).map (·.2)

/-- The whitespace characters recognised by Python's `str.split()` /
`str.strip()` (ASCII fragment). -/
def pyIsSpace (c : Char) : Bool :=
  c == ' ' || c == '\t' || c == '\n' || c == '\x0d' || c == '\x0b' || c == '\x0c'

/-- `needle` occurs at the head of `l`. -/
def startsWith : PyStr → PyStr → Bool
  | [], _ => true
  | _ :: _, [] => false
  | a :: as, b :: bs => a == b && startsWith as bs

/-- Index of the first occurrence of `needle` in `hay`, if any. -/
def findSubAux (needle : PyStr) : PyStr → Option Nat
  | [] => if needle.isEmpty then some 0 else none
  | c :: rest =>
    if startsWith needle (c :: rest) then some 0
    else (findSubAux needle rest).map (· + 1)

/-- Python `hay.find(needle)`: first index, or `-1` when absent. -/
def pyFind (hay needle : PyStr) : Int :=
  match findSubAux needle hay with
  | some n => (n : Int)
  | none => -1

/-- Python `needle in hay` (substring containment). -/
def containsSub (hay needle : PyStr) : Bool :=
  (findSubAux needle hay).isSome

/-- Clamp a Python slice bound to an index in `[0, len]`
(negative values count from the end). -/
def pyIdx (len : Nat) (i : Int) : Nat :=
  if i < 0 then
    if i + len < 0 then 0 else min (i + len).toNat len
  else min i.toNat len

/-- Python slice `s[i:j]` (step 1). -/
def pySlice {α : Type} (s : List α) (i j : Int) : List α :=
  (s.take (pyIdx s.length j)).drop (pyIdx s.length i)

/-- Python slice `s[i:]`. -/
def pySliceFrom {α : Type} (s : List α) (i : Int) : List α :=
  pySlice s i (s.length : Int)

/-- Python `s.strip()` (whitespace from both ends). -/
def pyStrip (s : PyStr) : PyStr :=
  ((s.dropWhile pyIsSpace).reverse.dropWhile pyIsSpace).reverse

/-- Python `s.split(sep)` for a one-character separator: splits at every
occurrence, keeping empty pieces (`"".split(",") = [""]`). -/
def splitChar (c : Char) : PyStr → List PyStr
  | [] => [[]]
  | a :: rest =>
    if a = c then [] :: splitChar c rest
    else
      match splitChar c rest with
      | h :: t => (a :: h) :: t
      | [] => [[a]]

/-- Python `s.split(sep, 1)` for a one-character separator: the part before
the first occurrence, and (when the separator occurs) the part after it. -/
def splitOnceChar (c : Char) : PyStr → PyStr × Option PyStr
  | [] => ([], none)
  | a :: rest =>
    if a = c then ([], some rest)
    else
      let p := splitOnceChar c rest
      (a :: p.1, p.2)

/-- Pieces of `s` between characters satisfying `p`
(for Python's separator-less `str.split()`, after filtering empties). -/
def splitPred (p : Char → Bool) : PyStr → List PyStr
  | [] => [[]]
  | a :: rest =>
    if p a then [] :: splitPred p rest
    else
      match splitPred p rest with
      | h :: t => (a :: h) :: t
      | [] => [[a]]

/-- Python `"sep".join(parts)`. -/
def joinWith (sep : PyStr) : List PyStr → PyStr
  | [] => []
  | [x] => x
  | x :: xs => x ++ sep ++ joinWith sep xs

/-- Python `s.lower()` (ASCII fragment). -/
def pyLower (s : PyStr) : PyStr := s.map Char.toLower

/-- Python `s.upper()` (ASCII fragment). -/
def pyUpper (s : PyStr) : PyStr := s.map Char.toUpper

/-! ## Tool-call protocol (src/agent.py, `Agent._parse_tool_call`) -/

/-- The literal `[TOOL_CALL]` marker. -/
def toolCallOpen : PyStr := "[TOOL_CALL]".data

/-- The literal `[/TOOL_CALL]` marker. -/
def toolCallClose : PyStr := "[/TOOL_CALL]".data

/-- Ephemeral parse result `{tool, params}` of the tool-call protocol. -/
structure ToolCall where
  tool : PyStr
  params : PyDict PyStr
deriving DecidableEq, Repr

/-- Parameter-list parsing of `Agent._parse_tool_call` (src/agent.py lines
106-112): split on `","`, keep pieces containing `"="`, split each such piece
on the first `"="`, strip both sides, insert into the params dict. -/
def parseParams (param_str : PyStr) : PyDict PyStr :=
  (splitChar ',' param_str).foldl
    (fun d piece =>
      match splitOnceChar '=' piece with
      | (k, some v) => dictInsert d (pyStrip k) (pyStrip v)
      | (_, none) => d)
    []

/-- Lines 102-117 of src/agent.py: given the stripped `tool_section`, split on
the first `":"` into tool name (stripped) and optional parameter list. -/
def parseSection (tool_section : PyStr) : ToolCall :=
  let parts := splitOnceChar ':' tool_section
  let tool_name := pyStrip parts.1
  match parts.2 with
  | none => { tool := tool_name, params := [] }
  | some rest => { tool := tool_name, params := parseParams (pyStrip rest) }

/-- `Agent._parse_tool_call` (src/agent.py lines 89-119). If the `[TOOL_CALL]`
marker is absent the result is "no call" (`none`). Otherwise the text between
`find("[TOOL_CALL]") + 11` and `find("[/TOOL_CALL]")` is sliced out with
Python slicing semantics (`find` yields `-1` when the closing marker is
missing), stripped, and parsed.  The source wraps this in `try/except`, but no
step of it can raise, so the embedding has no failure case. -/
def parse_tool_call (response : PyStr) : Option ToolCall :=
  if containsSub response toolCallOpen then
    let start : Int := pyFind response toolCallOpen + (toolCallOpen.length : Int)
    let stop : Int := pyFind response toolCallClose
    let tool_section := pyStrip (pySlice response start stop)
    some (parseSection tool_section)
  else
    none

/-! ## Conversation memory (src/memory.py) -/

/-- A conversation turn (src/memory.py lines 18-23).  The timestamp string is
produced externally (`datetime.now().isoformat()`), so `add_message` receives
it as an explicit argument; metadata values are modelled as strings. -/
structure Message where
  role : PyStr
  content : PyStr
  timestamp : PyStr
  metadata : PyDict PyStr
deriving DecidableEq, Repr

/-- `ConversationMemory`: a `deque(maxlen=max_history)` of messages. -/
structure ConversationMemory where
  history : List Message
  max_history : Nat
deriving DecidableEq, Repr

/-- `ConversationMemory(max_history=10)`. -/
def ConversationMemory.init (max_history : Nat := 10) : ConversationMemory :=
  { history := [], max_history := max_history }

/-- `deque.append` with `maxlen`: the oldest entry is evicted when the
append would exceed capacity. -/
def dequeAppend {α : Type} (cap : Nat) (h : List α) (x : α) : List α :=
  let h2 := h ++ [x]
  if h2.length > cap then h2.drop (h2.length - cap) else h2

/-- `ConversationMemory.add_message` (src/memory.py lines 16-24);
`metadata or {}` maps `None` to the empty dict. -/
def ConversationMemory.add_message (m : ConversationMemory) (role content : PyStr)
    (timestamp : PyStr) (metadata : Option (PyDict PyStr) := none) : ConversationMemory :=
  let message : Message :=
    { role := role, content := content, timestamp := timestamp,
      metadata := metadata.getD [] }
  { m with history := dequeAppend m.max_history m.history message }

/-- `ConversationMemory.get_history` (src/memory.py lines 26-30):
`list(self.history)` when `num_messages is None`, else
`list(self.history)[-num_messages:]` with Python slicing semantics. -/
def ConversationMemory.get_history (m : ConversationMemory)
    (num_messages : Option Int := none) : List Message :=
  match num_messages with
  | none => m.history
  | some n => pySliceFrom m.history (-n)

/-- `ConversationMemory.get_context` (src/memory.py lines 32-37). -/
def ConversationMemory.get_context (m : ConversationMemory) : PyStr :=
  joinWith "\n".data
    (m.history.map (fun msg => pyUpper msg.role ++ ": ".data ++ msg.content))

/-! ## Vector store and RAG pipeline (src/rag.py) -/

/-- A stored document (src/rag.py lines 17-21). -/
structure Doc where
  content : PyStr
  metadata : PyDict PyStr
  doc_id : Nat
deriving DecidableEq, Repr

/-- `VectorStore`: in-memory list of documents. -/
structure VectorStore where
  documents : List Doc
deriving DecidableEq, Repr

/-- `VectorStore.add_document` (src/rag.py lines 15-22): the new document's
`doc_id` is the current length of the store. -/
def VectorStore.add_document (vs : VectorStore) (content : PyStr)
    (metadata : Option (PyDict PyStr) := none) : VectorStore :=
  { documents := vs.documents ++
      [{ content := content, metadata := metadata.getD [], doc_id := vs.documents.length }] }

/-- `set(text.lower().split())`: the lower-cased whitespace-token set. -/
def termSet (s : PyStr) : Finset PyStr :=
  ((splitPred pyIsSpace (pyLower s)).filter (fun t => !t.isEmpty)).toFinset

/-- A scored retrieval result (src/rag.py lines 35-40); the Python float
`overlap / len(union)` is modelled as a rational. -/
structure ScoredResult where
  doc_id : Nat
  content : PyStr
  metadata : PyDict PyStr
  score : ℚ
deriving DecidableEq, Repr

/-- The `results` list built by the loop of `VectorStore.search`
(src/rag.py lines 28-40): per document, in store order, the Jaccard-scored
entry when the query/document term overlap is non-empty. -/
def matchList (vs : VectorStore) (query : PyStr) : List ScoredResult :=
  vs.documents.filterMap (fun doc =>
    if 0 < (termSet query ∩ termSet doc.content).card then
      some { doc_id := doc.doc_id, content := doc.content, metadata := doc.metadata,
             score := ((termSet query ∩ termSet doc.content).card : ℚ) /
               ((termSet query ∪ termSet doc.content).card : ℚ) }
    else none)

/-- The descending-score ordering used by `results.sort(key=..., reverse=True)`. -/
def scoreGE (a b : ScoredResult) : Prop := b.score ≤ a.score

instance : DecidableRel scoreGE := fun a b => inferInstanceAs (Decidable (b.score ≤ a.score))

/-- `VectorStore.search` (src/rag.py lines 24-44): build `results`, sort them
stably by descending score (Python's `list.sort` is stable; any stable sort
has the same output, here insertion sort), and return `results[:top_k]`. -/
def VectorStore.search (vs : VectorStore) (query : PyStr) (top_k : Int := 5) :
    List ScoredResult :=
  pySlice ((matchList vs query).insertionSort scoreGE) 0 top_k

/-- `VectorStore.get_document` (src/rag.py lines 46-50): point lookup guarded
by `0 <= doc_id < len(self.documents)`. -/
def VectorStore.get_document (vs : VectorStore) (doc_id : Int) : Option Doc :=
  if 0 ≤ doc_id ∧ doc_id < (vs.documents.length : Int) then
    vs.documents[doc_id.toNat]?
  else
    none

/-- `RAGPipeline` over its vector store (src/rag.py lines 53-57). -/
structure RAGPipeline where
  vector_store : VectorStore
deriving DecidableEq, Repr

/-- `RAGPipeline.retrieve` (src/rag.py lines 78-81). -/
def RAGPipeline.retrieve (rp : RAGPipeline) (query : PyStr) (top_k : Int := 5) :
    List PyStr :=
  (rp.vector_store.search query top_k).map (·.content)

/-- Decimal rendering of a counter for `format_context`. -/
def natStr (n : Nat) : PyStr := (toString n).data

/-- `RAGPipeline.format_context` (src/rag.py lines 83-93): numbered list of
contents, each truncated to 200 characters with an ellipsis when longer. -/
def RAGPipeline.format_context (documents : List PyStr) : PyStr :=
  if documents.isEmpty then
    "No relevant documents found.".data
  else
    (List.enumFrom 1 documents).foldl
      (fun acc p =>
        let truncated :=
          if 200 < p.2.length then p.2.take 200 ++ "...".data else p.2
        acc ++ "\n".data ++ natStr p.1 ++ ". ".data ++ truncated ++ "\n".data)
      "Relevant Documents:\n".data

/-- `RAGPipeline.augment_prompt` (src/rag.py lines 95-107). -/
def RAGPipeline.augment_prompt (rp : RAGPipeline) (query : PyStr) (top_k : Int := 5) :
    PyStr :=
  let context := RAGPipeline.format_context (rp.retrieve query top_k)
  "Use the following context to answer the question:\n\n".data ++ context ++
    "\n\nQuestion: ".data ++ query ++ "\n\nAnswer:".data

/-! ## Tools (src/tools.py) -/

/-- `ToolType` (src/tools.py lines 7-13). -/
inductive ToolType where
  | SEARCH | CALCULATOR | SUMMARIZER | RETRIEVER | CUSTOM
deriving DecidableEq, Repr

/-- A registered tool (src/tools.py lines 16-35).  Its capability takes the
keyword-argument dict and may raise (`Except.error` carries `str(e)`). -/
structure Tool where
  name : PyStr
  description : PyStr
  tool_type : ToolType
  func : PyDict PyStr → Except PyStr PyStr
  parameters : PyDict PyStr

/-- `ToolRegistry` (src/tools.py lines 47-77): a name-keyed dict. -/
structure ToolRegistry where
  tools : PyDict Tool

/-- `ToolRegistry.register` (src/tools.py lines 53-55): insert or overwrite. -/
def ToolRegistry.register (reg : ToolRegistry) (tool : Tool) : ToolRegistry :=
  { tools := dictInsert reg.tools tool.name tool }

/-- `ValueError(f"Tool '{name}' not found")` rendered through `str`. -/
def toolNotFoundMsg (name : PyStr) : PyStr :=
  "Tool \x27".data ++ name ++ "\x27 not found".data

/-- `ToolRegistry.get_tool` (src/tools.py lines 57-61): raises when absent. -/
def ToolRegistry.get_tool (reg : ToolRegistry) (name : PyStr) : Except PyStr Tool :=
  match dictGet reg.tools name with
  | none => Except.error (toolNotFoundMsg name)
  | some tool => Except.ok tool

/-- `ToolRegistry.execute_tool` (src/tools.py lines 63-66): look up, then
invoke the capability; both failures propagate to the caller. -/
def ToolRegistry.execute_tool (reg : ToolRegistry) (name : PyStr)
    (kwargs : PyDict PyStr) : Except PyStr PyStr :=
  (reg.get_tool name).bind (fun tool => tool.func kwargs)

/-- `ToolRegistry.get_tools_for_context` (src/tools.py lines 72-77). -/
def ToolRegistry.get_tools_for_context (reg : ToolRegistry) : PyStr :=
  reg.tools.foldl
    (fun acc p =>
      acc ++ "\n- ".data ++ p.2.name ++ ": ".data ++ p.2.description ++ "\n".data)
    "Available Tools:\n".data

/-! ## Agent (src/agent.py) -/

/-- `AgentState` (src/agent.py lines 12-19). -/
inductive AgentState where
  | IDLE | THINKING | EXECUTING | RETRIEVING | COMPLETE | ERROR
deriving DecidableEq, Repr

/-- The two generation seams of the agent, treated by the spec as opaque
boundary collaborators: `_generate_response(context, query)` and
`_continue_reasoning(current, tool_result)` (src/agent.py lines 169-177).
Both are total text-to-text functions (spec section 6). -/
structure GenOracle where
  generate : PyStr → PyStr → PyStr
  continueReasoning : PyStr → PyStr → PyStr

/-- The placeholder implementations shipped in src/agent.py lines 169-177:
`_generate_response` ignores the context and interpolates the query into a
fixed template; `_continue_reasoning` returns the current response unchanged. -/
def defaultOracle : GenOracle where
  generate := fun _ query =>
    "Based on the context, here\x27s my response to \x27".data ++ query ++
      "\x27:\n\nI need more context to provide a comprehensive answer. Please ensure the LLM is properly configured.".data
  continueReasoning := fun current _ => current

/-- The agent's mutable state and owned subsystems (src/agent.py lines 25-44).
`temperature` and the precomputed system prompt play no role in any claim's
code path and are omitted. -/
structure Agent where
  name : PyStr
  model : PyStr
  state : AgentState
  tool_registry : ToolRegistry
  memory : Option ConversationMemory
  rag_pipeline : Option RAGPipeline
  max_iterations : Int

/-- `Agent.__init__` (src/agent.py lines 25-44). -/
def Agent.init (name : PyStr := "AIAgent".data) (model : PyStr := "gpt-3.5-turbo".data)
    (use_rag : Bool := true) (use_memory : Bool := true) : Agent :=
  { name := name, model := model, state := AgentState.IDLE,
    tool_registry := { tools := [] },
    memory := if use_memory then some (ConversationMemory.init) else none,
    rag_pipeline := if use_rag then some { vector_store := { documents := [] } } else none,
    max_iterations := 10 }

/-- `Agent.register_tool` (src/agent.py lines 63-65). -/
def Agent.register_tool (a : Agent) (tool : Tool) : Agent :=
  { a with tool_registry := a.tool_registry.register tool }

/-- `Agent._prepare_context` (src/agent.py lines 67-87): conversation history
(when memory holds any), RAG augmentation (when enabled), and the tool
listing, joined by newlines.  The tool listing always starts with
`"Available Tools:"` and is therefore always truthy. -/
def Agent.prepare_context (a : Agent) (query : PyStr) : PyStr :=
  let memory_parts : List PyStr :=
    match a.memory with
    | some m =>
      let history := m.get_context
      if history.isEmpty then []
      else ["Conversation History:\n".data ++ history ++ "\n".data]
    | none => []
  let rag_parts : List PyStr :=
    match a.rag_pipeline with
    | some rp => [rp.augment_prompt query 5]
    | none => []
  let tool_context := a.tool_registry.get_tools_for_context
  let tool_parts : List PyStr := if tool_context.isEmpty then [] else [tool_context]
  joinWith "\n".data (memory_parts ++ rag_parts ++ tool_parts)

/-- `Agent.execute_tool` (src/agent.py lines 121-130): run the registry
dispatch inside `try/except`; a raised failure becomes the literal result
`"Tool execution error: <message>"` and the `ERROR` state, success yields the
result text and the `IDLE` state. -/
def Agent.execute_tool_step (reg : ToolRegistry) (tool_name : PyStr)
    (kwargs : PyDict PyStr) : PyStr × AgentState :=
  match reg.execute_tool tool_name kwargs with
  | Except.ok result => (result, AgentState.IDLE)
  | Except.error e => ("Tool execution error: ".data ++ e, AgentState.ERROR)

/-- The result text fed back into the reasoning loop for one tool call:
the capability's output, or the synthesized error text. -/
def toolResultText (reg : ToolRegistry) (c : ToolCall) : PyStr :=
  (Agent.execute_tool_step reg c.tool c.params).1

/-- The `for _ in range(max_iterations)` loop of `Agent.think`
(src/agent.py lines 150-160), instrumented with the list of executed tool
calls: parse the current response; on "no call" break, otherwise execute the
call (updating the agent state) and continue with
`_continue_reasoning(response, tool_result)`. -/
def thinkLoop (g : GenOracle) (reg : ToolRegistry) :
    Nat → PyStr → AgentState → PyStr × AgentState × List ToolCall
  | 0, response, st => (response, st, [])
  | n + 1, response, st =>
    match parse_tool_call response with
    | none => (response, st, [])
    | some c =>
      let step := Agent.execute_tool_step reg c.tool c.params
      let rest := thinkLoop g reg n (g.continueReasoning response step.1) step.2
      (rest.1, rest.2.1, c :: rest.2.2)

/-- The agent state after recording the user query
(src/agent.py lines 137-141): `THINKING`, with the query appended to memory
when memory is enabled. -/
def Agent.afterUserMsg (a : Agent) (query ts_user : PyStr) : Agent :=
  { a with state := AgentState.THINKING,
           memory := a.memory.map (fun m => m.add_message "user".data query ts_user none) }

/-- `Agent.think` (src/agent.py lines 132-167), parameterized by the
generation oracle and by the two externally produced timestamps of the
`add_message` calls.  Returns the final response and the updated agent. -/
def Agent.think (g : GenOracle) (a : Agent) (query : PyStr)
    (max_iterations : Option Int := none) (ts_user ts_assistant : PyStr := []) :
    PyStr × Agent :=
  let bound : Nat := (max_iterations.getD a.max_iterations).toNat
  let a1 : Agent := a.afterUserMsg query ts_user
  let context := a1.prepare_context query
  let response := g.generate context query
  let loopOut := thinkLoop g a1.tool_registry bound response a1.state
  let memory2 := a1.memory.map
    (fun m => m.add_message "assistant".data loopOut.1 ts_assistant none)
  (loopOut.1, { a1 with state := AgentState.COMPLETE, memory := memory2 })

/-- One round of the reasoning loop's response evolution: when the current
response parses to a tool call, the next response is
`_continue_reasoning(response, tool_result)`; otherwise it is unchanged. -/
def reasonStep (g : GenOracle) (reg : ToolRegistry) (r : PyStr) : PyStr :=
  match parse_tool_call r with
  | some c => g.continueReasoning r (toolResultText reg c)
  | none => r

/-- The sequence of responses produced during the loop:
`responseChain g reg r0 k` is the response after `k` rounds starting from the
initial generation `r0`. -/
def responseChain (g : GenOracle) (reg : ToolRegistry) (r0 : PyStr) : Nat → PyStr
  | 0 => r0
  | k + 1 => responseChain g reg (reasonStep g reg r0) k

/-! ## Auxiliary fold/state helpers for the claims -/

/-- One `add_message` call: role, content, externally supplied timestamp,
optional metadata. -/
abbrev MsgOp := PyStr × PyStr × PyStr × Option (PyDict PyStr)

/-- The `Message` built by `add_message` from one call's arguments. -/
def msgOfOp (op : MsgOp) : Message :=
  { role := op.1, content := op.2.1, timestamp := op.2.2.1,
    metadata := (op.2.2.2).getD [] }

/-- Run a sequence of `add_message` calls. -/
def addAllMsgs (m : ConversationMemory) (ops : List MsgOp) : ConversationMemory :=
  ops.foldl (fun mm op => mm.add_message op.1 op.2.1 op.2.2.1 op.2.2.2) m

/-- One `add_document` call: content and optional metadata. -/
abbrev DocOp := PyStr × Option (PyDict PyStr)

/-- Run a sequence of `add_document` calls. -/
def addAllDocs (vs : VectorStore) (ops : List DocOp) : VectorStore :=
  ops.foldl (fun v op => v.add_document op.1 op.2) vs

/-- A store is well-formed when each stored document's `doc_id` equals its
position — exactly the invariant C9 establishes for stores built by
`add_document`. -/
def VectorStore.wellFormed (vs : VectorStore) : Prop :=
  ∀ i (h : i < vs.documents.length), (vs.documents.get ⟨i, h⟩).doc_id = i

instance (vs : VectorStore) : Decidable vs.wellFormed :=
  Nat.decidableBallLT _ _

/-! ## C4: tool-call round trip -/

/-- **C4.** Parsing `"[TOOL_CALL] search: query=hello world [/TOOL_CALL]"`
yields the tool call `{tool: "search", params: {"query": "hello world"}}`,
and for every text not containing the `[TOOL_CALL]` marker, parsing yields
"no call" (`none`), not an error. -/
theorem C4_tool_call_round_trip :
    parse_tool_call "[TOOL_CALL] search: query=hello world [/TOOL_CALL]".data =
      some { tool := "search".data, params := [("query".data, "hello world".data)] } ∧
    ∀ s : PyStr, containsSub s toolCallOpen = false → parse_tool_call s = none := by
  refine ⟨by decide, fun s h => ?_⟩
  simp [parse_tool_call, h]

/-- Witness for C4's universally quantified conjunct at the concrete
marker-free text `"just an answer"`. -/
theorem C4_witness :
    parse_tool_call "just an answer".data = none :=
  C4_tool_call_round_trip.2 "just an answer".data (by decide)

/-! ## C3: missing closing marker -/

/-- Modelled from the spec's words for claim C3: "if `[/TOOL_CALL]` is
missing, slicing to end-of-text is used".  Identical to `parse_tool_call`
except that the extracted section runs to the end of the text.  Used only to
compare the claimed behaviour with the code's behaviour. -/
def parse_tool_call_claimC3 (response : PyStr) : Option ToolCall :=
  if containsSub response toolCallOpen then
    let start : Int := pyFind response toolCallOpen + (toolCallOpen.length : Int)
    let tool_section := pyStrip (pySliceFrom response start)
    some (parseSection tool_section)
  else
    none

/-- **C3, counterexample.** On `"[TOOL_CALL] t: a=bc"` (no closing marker)
the code slices `response[start:-1]` — `find` returned `-1`, which Python
interprets as end-of-text *minus one* — so the parsed value is `"b"`, while
slicing to end-of-text as the claim states would give `"bc"`. -/
theorem C3_counterexample :
    parse_tool_call "[TOOL_CALL] t: a=bc".data =
      some { tool := "t".data, params := [("a".data, "b".data)] } ∧
    parse_tool_call_claimC3 "[TOOL_CALL] t: a=bc".data =
      some { tool := "t".data, params := [("a".data, "bc".data)] } ∧
    parse_tool_call "[TOOL_CALL] t: a=bc".data ≠
      parse_tool_call_claimC3 "[TOOL_CALL] t: a=bc".data := by
  refine ⟨by decide, by decide, by decide⟩

lemma pyFind_of_not_contains {hay needle : PyStr} (h : containsSub hay needle = false) :
    pyFind hay needle = -1 := by
  unfold containsSub at h
  unfold pyFind
  cases hfind : findSubAux needle hay with
  | none => rfl
  | some n => rw [hfind] at h; simp at h

lemma pyIdx_neg_one (len : Nat) : pyIdx len (-1) = len - 1 := by
  unfold pyIdx
  split_ifs <;> omega

lemma pyIdx_len_sub_one (len : Nat) : pyIdx len ((len : Int) - 1) = len - 1 := by
  unfold pyIdx
  split_ifs <;> omega

/-- **C3, amended.** For every text containing `[TOOL_CALL]` but not
`[/TOOL_CALL]`, the parser extracts the substring from just after the first
`[TOOL_CALL]` marker to the end of the text *minus one character* (Python's
`find` returns `-1` for the missing closing marker, and an end index of `-1`
means "up to the last character, excluded"), and parsing does not fail. -/
theorem C3_unterminated_marker (s : PyStr)
    (hopen : containsSub s toolCallOpen = true)
    (hclose : containsSub s toolCallClose = false) :
    parse_tool_call s =
      some (parseSection (pyStrip
        (pySlice s (pyFind s toolCallOpen + (toolCallOpen.length : Int))
          ((s.length : Int) - 1)))) ∧
    (parse_tool_call s).isSome := by
  have hstop : pyFind s toolCallClose = -1 := pyFind_of_not_contains hclose
  have hslice : pySlice s (pyFind s toolCallOpen + (toolCallOpen.length : Int)) (-1)
      = pySlice s (pyFind s toolCallOpen + (toolCallOpen.length : Int))
          ((s.length : Int) - 1) := by
    unfold pySlice
    rw [pyIdx_neg_one, pyIdx_len_sub_one]
  constructor
  · unfold parse_tool_call
    rw [hopen, hstop]
    simp only [if_true]
    rw [hslice]
  · unfold parse_tool_call
    rw [hopen]
    simp

/-- Witness for C3's amended theorem at the concrete input
`"[TOOL_CALL] t: a=bc"`. -/
theorem C3_witness :
    parse_tool_call "[TOOL_CALL] t: a=bc".data =
      some (parseSection (pyStrip
        (pySlice "[TOOL_CALL] t: a=bc".data
          (pyFind "[TOOL_CALL] t: a=bc".data toolCallOpen + (toolCallOpen.length : Int))
          (("[TOOL_CALL] t: a=bc".data.length : Int) - 1)))) ∧
    (parse_tool_call "[TOOL_CALL] t: a=bc".data).isSome :=
  C3_unterminated_marker "[TOOL_CALL] t: a=bc".data (by decide) (by decide)


/-! ## C5: bounded FIFO memory -/

lemma dequeAppend_eq {α : Type} (cap : Nat) (h : List α) (x : α) :
    dequeAppend cap h x = (h ++ [x]).drop (h.length + 1 - cap) := by
  unfold dequeAppend
  simp only [List.length_append, List.length_cons, List.length_nil, Nat.zero_add]
  split_ifs with hc
  · rfl
  · rw [Nat.sub_eq_zero_of_le (by omega), List.drop_zero]

lemma add_message_history (m : ConversationMemory) (role content ts : PyStr)
    (md : Option (PyDict PyStr)) :
    (m.add_message role content ts md).history =
      (m.history ++ [msgOfOp (role, content, ts, md)]).drop
        (m.history.length + 1 - m.max_history) := by
  show dequeAppend m.max_history m.history (msgOfOp (role, content, ts, md)) =
    (m.history ++ [msgOfOp (role, content, ts, md)]).drop
      (m.history.length + 1 - m.max_history)
  rw [dequeAppend_eq]

lemma addAllMsgs_history :
    ∀ (ops : List MsgOp) (m : ConversationMemory),
      m.history.length ≤ m.max_history →
      (addAllMsgs m ops).history =
        (m.history ++ ops.map msgOfOp).drop
          (m.history.length + ops.length - m.max_history)
  | [], m, hinv => by
    simp only [addAllMsgs, List.foldl_nil, List.map_nil, List.append_nil,
      List.length_nil, Nat.add_zero]
    rw [Nat.sub_eq_zero_of_le hinv, List.drop_zero]
  | op :: rest, m, hinv => by
    set m' := m.add_message op.1 op.2.1 op.2.2.1 op.2.2.2 with hm'
    have hstep : addAllMsgs m (op :: rest) = addAllMsgs m' rest := rfl
    have hhist : m'.history = (m.history ++ [msgOfOp op]).drop
        (m.history.length + 1 - m.max_history) := add_message_history m _ _ _ _
    have hcap : m'.max_history = m.max_history := rfl
    have hinv' : m'.history.length ≤ m'.max_history := by
      rw [hhist, hcap, List.length_drop, List.length_append,
        List.length_cons, List.length_nil]
      omega
    have IH := addAllMsgs_history rest m' hinv'
    rw [hstep, IH, hcap, hhist]
    rw [← List.drop_append_of_le_length (by
      simp only [List.length_append, List.length_cons, List.length_nil]
      omega)]
    rw [List.drop_drop]
    have hlistEq : (m.history ++ [msgOfOp op]) ++ rest.map msgOfOp =
        m.history ++ (op :: rest).map msgOfOp := by
      simp [List.map_cons]
    rw [hlistEq]
    congr 1
    simp only [List.length_drop, List.length_append, List.length_cons,
      List.length_nil]
    omega

/-- **C5.** For every capacity and every sequence of `add_message` calls on an
initially empty Message Log, the retained history is exactly the appended
message sequence with the oldest entries beyond capacity evicted first
(FIFO), its length never exceeds `max_history` (every intermediate state is
the state after some prefix of the calls, so the quantification over all call
sequences covers "at all times"), and `get_history()` returns exactly that
retained history, in chronological order. -/
theorem C5_bounded_fifo_memory (cap : Nat) (ops : List MsgOp) :
    (addAllMsgs (ConversationMemory.init cap) ops).history =
      (ops.map msgOfOp).drop (ops.length - cap) ∧
    (addAllMsgs (ConversationMemory.init cap) ops).history.length ≤ cap ∧
    (addAllMsgs (ConversationMemory.init cap) ops).get_history none =
      (ops.map msgOfOp).drop (ops.length - cap) := by
  have h0 : (ConversationMemory.init cap).history = [] := rfl
  have h1 : (ConversationMemory.init cap).max_history = cap := rfl
  have h := addAllMsgs_history ops (ConversationMemory.init cap)
    (by rw [h0]; exact Nat.zero_le _)
  rw [h0, h1] at h
  simp only [List.nil_append, List.length_nil, Nat.zero_add] at h
  refine ⟨h, ?_, h⟩
  rw [h, List.length_drop, List.length_map]
  omega

/-! ## C6: get_history -/

lemma pyIdx_cast_len (len : Nat) : pyIdx len (len : Int) = len := by
  unfold pyIdx
  split_ifs <;> omega

lemma pyIdx_neg (len : Nat) (n : Int) (hn : 0 < n) :
    pyIdx len (-n) = len - n.toNat := by
  unfold pyIdx
  split_ifs <;> omega

/-- A two-message log on which `get_history(0)` exhibits Python's
`lst[-0:] = lst` slicing quirk. -/
def memC6 : ConversationMemory :=
  ((ConversationMemory.init 10).add_message "user".data "a".data "t1".data
      none).add_message "user".data "b".data "t2".data none

/-- **C6, counterexample.** The claim says `get_history(n)` returns exactly
the most recent `n` retained messages for *every* integer `n`; at `n = 0`
that would be the empty list, but `list(self.history)[-0:]` is
`list(self.history)[0:]`, the full retained log — here both of the two
retained messages. -/
theorem C6_counterexample :
    memC6.get_history (some 0) = memC6.history ∧
    memC6.history.length = 2 := by
  refine ⟨by decide, by decide⟩

/-- **C6, amended.** For every Message Log state and every integer `n ≥ 1`,
`get_history(n)` returns exactly the most recent `min n (length)` retained
messages — all of them if fewer than `n` are retained — in original
chronological order, and `get_history()` with `n` omitted returns the full
retained log.  (Neither call mutates: in this embedding both are pure
functions of the log.)  For `n ≤ 0` the claim fails, since the code computes
the Python slice `list(self.history)[-n:]`. -/
theorem C6_get_history_recent (m : ConversationMemory) (n : Int) (hn : 1 ≤ n) :
    m.get_history (some n) = m.history.drop (m.history.length - n.toNat) ∧
    (m.get_history (some n)).length = min n.toNat m.history.length ∧
    m.get_history none = m.history := by
  have h1 : m.get_history (some n) =
      m.history.drop (m.history.length - n.toNat) := by
    show pySliceFrom m.history (-n) = _
    unfold pySliceFrom pySlice
    rw [pyIdx_cast_len, List.take_length, pyIdx_neg _ _ (by omega)]
  refine ⟨h1, ?_, rfl⟩
  rw [h1, List.length_drop]
  omega

/-- Witness for C6's amended theorem at the concrete log `memC6` and `n = 1`. -/
theorem C6_witness :
    memC6.get_history (some 1) =
      memC6.history.drop (memC6.history.length - (1 : Int).toNat) ∧
    (memC6.get_history (some 1)).length =
      min (1 : Int).toNat memC6.history.length ∧
    memC6.get_history none = memC6.history :=
  C6_get_history_recent memC6 1 (by decide)

/-! ## C9: stable doc_id assignment and lookup -/

lemma addAllDocs_documents :
    ∀ (ops : List DocOp) (vs : VectorStore),
      (addAllDocs vs ops).documents =
        vs.documents ++ (List.enumFrom vs.documents.length ops).map
          (fun p => { content := p.2.1, metadata := (p.2.2).getD [],
                      doc_id := p.1 })
  | [], vs => by simp [addAllDocs, List.enumFrom]
  | op :: rest, vs => by
    have hstep : addAllDocs vs (op :: rest) =
        addAllDocs (vs.add_document op.1 op.2) rest := rfl
    have hadd : (vs.add_document op.1 op.2).documents =
        vs.documents ++ [{ content := op.1, metadata := (op.2).getD [],
                           doc_id := vs.documents.length }] := rfl
    rw [hstep, addAllDocs_documents rest, hadd]
    simp [List.enumFrom_cons, List.append_assoc, Nat.add_comm]

lemma addAllDocs_length (ops : List DocOp) :
    (addAllDocs (VectorStore.mk []) ops).documents.length = ops.length := by
  rw [addAllDocs_documents]
  simp

/-- **C9.** For every sequence of `add_document` calls on an initially empty
Document Store: the `n`-th inserted document (0-indexed) is stored at index
`n` with `doc_id = n`; earlier entries are unchanged by later insertions; and
`get_document(i)` returns the stored document for `0 ≤ i < count` and an
absent-value `none` — not an exception — for every other integer `i`,
negative ids included. -/
theorem C9_doc_id_assignment (ops ops2 : List DocOp) :
    (∀ n : Nat, (addAllDocs (VectorStore.mk []) ops).documents[n]? =
      (ops[n]?).map (fun op =>
        { content := op.1, metadata := (op.2).getD [], doc_id := n })) ∧
    ((addAllDocs (addAllDocs (VectorStore.mk []) ops) ops2).documents.take
        ops.length = (addAllDocs (VectorStore.mk []) ops).documents) ∧
    (∀ n : Nat, n < ops.length →
      (addAllDocs (VectorStore.mk []) ops).get_document (n : Int) =
        (addAllDocs (VectorStore.mk []) ops).documents[n]?) ∧
    (∀ i : Int, i < 0 ∨ (ops.length : Int) ≤ i →
      (addAllDocs (VectorStore.mk []) ops).get_document i = none) := by
  refine ⟨fun n => ?_, ?_, fun n hn => ?_, fun i hi => ?_⟩
  · rw [addAllDocs_documents]
    simp only [List.length_nil, List.nil_append, List.getElem?_map,
      List.getElem?_enumFrom, Nat.zero_add, Option.map_map]
    cases ops[n]? <;> rfl
  · rw [addAllDocs_documents ops2]
    exact List.take_left' (addAllDocs_length ops)
  · unfold VectorStore.get_document
    rw [if_pos]
    · simp
    · constructor
      · exact Int.natCast_nonneg n
      · rw [addAllDocs_length]
        exact_mod_cast hn
  · unfold VectorStore.get_document
    rw [if_neg]
    rw [addAllDocs_length]
    omega

/-- Witness for C9 at a concrete two-document store, checking index `0`,
in-range lookup `1`, a later insertion, and the out-of-range ids `-1`. -/
theorem C9_witness :
    ((addAllDocs (VectorStore.mk [])
        [("a".data, none), ("b".data, none)]).documents[0]? =
      some { content := "a".data, metadata := [], doc_id := 0 }) ∧
    ((addAllDocs (addAllDocs (VectorStore.mk [])
          [("a".data, none), ("b".data, none)]) [("c".data, none)]).documents.take 2 =
      (addAllDocs (VectorStore.mk [])
          [("a".data, none), ("b".data, none)]).documents) ∧
    ((addAllDocs (VectorStore.mk [])
        [("a".data, none), ("b".data, none)]).get_document (1 : Int) =
      (addAllDocs (VectorStore.mk [])
        [("a".data, none), ("b".data, none)]).documents[1]?) ∧
    ((addAllDocs (VectorStore.mk [])
        [("a".data, none), ("b".data, none)]).get_document (-1) = none) := by
  have h := C9_doc_id_assignment [("a".data, none), ("b".data, none)]
    [("c".data, none)]
  exact ⟨by rw [h.1 0]; rfl, h.2.1, h.2.2.1 1 (by decide),
    h.2.2.2 (-1) (Or.inl (by decide))⟩

/-! ## C7: Jaccard scoring and exclusion of non-overlapping documents -/

lemma pyIdx_zero (len : Nat) : pyIdx len 0 = 0 := by
  unfold pyIdx
  split_ifs <;> omega

lemma pySlice_zero {α : Type} (l : List α) (j : Int) :
    pySlice l 0 j = l.take (pyIdx l.length j) := by
  unfold pySlice
  rw [pyIdx_zero, List.drop_zero]

lemma search_eq_take (vs : VectorStore) (q : PyStr) (k : Int) :
    vs.search q k = ((matchList vs q).insertionSort scoreGE).take
      (pyIdx ((matchList vs q).insertionSort scoreGE).length k) := by
  unfold VectorStore.search
  rw [pySlice_zero]

lemma mem_of_mem_search {vs : VectorStore} {q : PyStr} {k : Int}
    {r : ScoredResult} (h : r ∈ vs.search q k) : r ∈ matchList vs q := by
  rw [search_eq_take] at h
  have h2 := List.take_subset _ _ h
  exact (List.mem_insertionSort scoreGE).1 h2

lemma mem_matchList {vs : VectorStore} {q : PyStr} {r : ScoredResult}
    (h : r ∈ matchList vs q) :
    ∃ doc ∈ vs.documents, 0 < (termSet q ∩ termSet doc.content).card ∧
      r = { doc_id := doc.doc_id, content := doc.content,
            metadata := doc.metadata,
            score := (((termSet q ∩ termSet doc.content).card : ℚ) /
              ((termSet q ∪ termSet doc.content).card : ℚ)) } := by
  unfold matchList at h
  obtain ⟨doc, hdoc, hf⟩ := List.mem_filterMap.1 h
  refine ⟨doc, hdoc, ?_⟩
  by_cases hov : 0 < (termSet q ∩ termSet doc.content).card
  · rw [if_pos hov] at hf
    exact ⟨hov, (Option.some_injective _ hf).symm⟩
  · rw [if_neg hov] at hf
    exact absurd hf (by simp)

lemma wellFormed_doc_id_inj {vs : VectorStore} (hwf : vs.wellFormed)
    {d1 d2 : Doc} (h1 : d1 ∈ vs.documents) (h2 : d2 ∈ vs.documents)
    (hid : d1.doc_id = d2.doc_id) : d1 = d2 := by
  obtain ⟨i, hi⟩ := List.mem_iff_get.1 h1
  obtain ⟨j, hj⟩ := List.mem_iff_get.1 h2
  have hi' := hwf i.1 i.2
  have hj' := hwf j.1 j.2
  rw [hi] at hi'
  rw [hj] at hj'
  have : i.1 = j.1 := by rw [← hi', ← hj', hid]
  rw [← hi, ← hj]
  congr 1
  exact Fin.ext this

/-- **C7.** Every result returned by `search` corresponds to a stored
document whose lower-cased whitespace-token set overlaps the query's token
set; its score is `|intersection| / |union|` (Jaccard) and lies in `(0,1]`;
under the doc_id invariant, documents with zero overlap never appear in the
results; and a query with an empty token set yields an empty result list. -/
theorem C7_search_scores (vs : VectorStore) (q : PyStr) (k : Int) :
    (∀ r ∈ vs.search q k, ∃ doc ∈ vs.documents,
      r.doc_id = doc.doc_id ∧ r.content = doc.content ∧
      (termSet q ∩ termSet doc.content).Nonempty ∧
      r.score = ((termSet q ∩ termSet doc.content).card : ℚ) /
        ((termSet q ∪ termSet doc.content).card : ℚ) ∧
      0 < r.score ∧ r.score ≤ 1) ∧
    (vs.wellFormed → ∀ d ∈ vs.documents,
      (termSet q ∩ termSet d.content).card = 0 →
      ∀ r ∈ vs.search q k, r.doc_id ≠ d.doc_id) ∧
    (termSet q = ∅ → vs.search q k = []) := by
  refine ⟨fun r hr => ?_, fun hwf d hd hzero r hr hid => ?_, fun hq => ?_⟩
  · obtain ⟨doc, hdoc, hov, hr_eq⟩ := mem_matchList (mem_of_mem_search hr)
    have hsub : (termSet q ∩ termSet doc.content) ⊆
        (termSet q ∪ termSet doc.content) := Finset.inter_subset_union
    have hcard_le := Finset.card_le_card hsub
    have hupos : 0 < (termSet q ∪ termSet doc.content).card :=
      Nat.lt_of_lt_of_le hov hcard_le
    refine ⟨doc, hdoc, by rw [hr_eq], by rw [hr_eq], Finset.card_pos.1 hov,
      by rw [hr_eq], ?_, ?_⟩
    · rw [hr_eq]
      exact div_pos (by exact_mod_cast hov) (by exact_mod_cast hupos)
    · rw [hr_eq]
      exact (div_le_one (by exact_mod_cast hupos)).2 (by exact_mod_cast hcard_le)
  · obtain ⟨doc, hdoc, hov, hr_eq⟩ := mem_matchList (mem_of_mem_search hr)
    have : doc = d := by
      apply wellFormed_doc_id_inj hwf hdoc hd
      rw [← hid, hr_eq]
    rw [this, hzero] at hov
    exact Nat.lt_irrefl 0 hov
  · have hnil : matchList vs q = [] := by
      unfold matchList
      rw [List.filterMap_eq_nil_iff]
      intro doc _
      rw [hq]
      simp
    rw [search_eq_take, hnil]
    simp

/-- A concrete two-document store for the retrieval witnesses: one document
overlapping the query `"cat"`, one with no overlap. -/
def vsW : VectorStore :=
  { documents := [ { content := "cat".data, metadata := [], doc_id := 0 },
                   { content := "xyz".data, metadata := [], doc_id := 1 } ] }

/-- The single scored result of `vsW.search "cat"`. -/
def r0W : ScoredResult :=
  { doc_id := 0, content := "cat".data, metadata := [],
    score := ((termSet "cat".data ∩ termSet "cat".data).card : ℚ) /
      ((termSet "cat".data ∪ termSet "cat".data).card : ℚ) }

lemma vsW_search_eq : vsW.search "cat".data 5 = [r0W] := by rfl

lemma r0W_mem : r0W ∈ vsW.search "cat".data 5 := by
  rw [vsW_search_eq]
  exact List.mem_singleton_self r0W

/-- Witness for C7 at the store `vsW`: its returned result for query `"cat"`
satisfies the scoring contract, the zero-overlap document `"xyz"` (doc_id 1)
does not appear, and the empty query returns no results. -/
theorem C7_witness :
    (∃ doc ∈ vsW.documents,
      r0W.doc_id = doc.doc_id ∧ r0W.content = doc.content ∧
      (termSet "cat".data ∩ termSet doc.content).Nonempty ∧
      r0W.score = ((termSet "cat".data ∩ termSet doc.content).card : ℚ) /
        ((termSet "cat".data ∪ termSet doc.content).card : ℚ) ∧
      0 < r0W.score ∧ r0W.score ≤ 1) ∧
    r0W.doc_id ≠ ({ content := "xyz".data, metadata := [], doc_id := 1 } : Doc).doc_id ∧
    vsW.search "".data 5 = [] :=
  ⟨(C7_search_scores vsW "cat".data 5).1 r0W r0W_mem,
   (C7_search_scores vsW "cat".data 5).2.1 (by decide)
     { content := "xyz".data, metadata := [], doc_id := 1 }
     (by decide) (by decide) r0W r0W_mem,
   (C7_search_scores vsW "".data 5).2.2 (by decide)⟩

/-! ## C8: descending, truncated, stable ranking -/

instance : IsTotal ScoredResult scoreGE :=
  ⟨fun a b => le_total b.score a.score⟩

instance : IsTrans ScoredResult scoreGE :=
  ⟨fun _ _ _ h1 h2 => le_trans h2 h1⟩

lemma pyIdx_natCast (len k : Nat) : pyIdx len (k : Int) = min k len := by
  unfold pyIdx
  split_ifs <;> omega

lemma take_min_length {α : Type} (l : List α) (k : Nat) :
    l.take (min k l.length) = l.take k := by
  rcases le_total k l.length with h | h
  · rw [min_eq_left h]
  · rw [min_eq_right h, List.take_length, List.take_of_length_le h]

lemma search_natCast_eq_take (vs : VectorStore) (q : PyStr) (k : Nat) :
    vs.search q (k : Int) =
      ((matchList vs q).insertionSort scoreGE).take k := by
  rw [search_eq_take, pyIdx_natCast]
  exact take_min_length _ _

lemma pair_sublist_of_mem_mem {α : Type} {l : List α} {a b : α}
    (ha : a ∈ l) (hb : b ∈ l) (hne : a ≠ b) :
    List.Sublist [a, b] l ∨ List.Sublist [b, a] l := by
  induction l with
  | nil => cases ha
  | cons x t ih =>
    rcases List.mem_cons.1 ha with rfl | ha'
    · rcases List.mem_cons.1 hb with rfl | hb'
      · exact absurd rfl hne
      · exact Or.inl ((List.singleton_sublist.2 hb').cons₂ a)
    · rcases List.mem_cons.1 hb with rfl | hb'
      · exact Or.inr ((List.singleton_sublist.2 ha').cons₂ b)
      · rcases ih ha' hb' with h | h
        · exact Or.inl (h.cons x)
        · exact Or.inr (h.cons x)

lemma eq_of_pair_sublists_nodup {α : Type} :
    ∀ {l : List α} {a b : α}, l.Nodup → List.Sublist [a, b] l → List.Sublist [b, a] l → a = b := by
  intro l
  induction l with
  | nil => intro a b _ h1 _; cases h1
  | cons x t ih =>
    intro a b hnd h1 h2
    have hx : x ∉ t := (List.nodup_cons.1 hnd).1
    have hnd' : t.Nodup := (List.nodup_cons.1 hnd).2
    cases h1 with
    | cons _ h1' =>
      cases h2 with
      | cons _ h2' => exact ih hnd' h1' h2'
      | cons₂ h2' =>
        exact absurd (h1'.subset (by simp)) hx
    | cons₂ h1' =>
      cases h2 with
      | cons _ h2' =>
        exact absurd (h2'.subset (by simp)) hx
      | cons₂ h2' => rfl

lemma documents_pairwise_docid {vs : VectorStore} (hwf : vs.wellFormed) :
    vs.documents.Pairwise (fun d1 d2 => d1.doc_id < d2.doc_id) := by
  rw [List.pairwise_iff_getElem]
  intro i j hi hj hij
  have h1 := hwf i hi
  have h2 := hwf j hj
  simp only [List.get_eq_getElem] at h1 h2
  rw [h1, h2]
  exact hij

lemma matchList_pairwise_docid {vs : VectorStore} (q : PyStr)
    (hwf : vs.wellFormed) :
    (matchList vs q).Pairwise (fun a b => a.doc_id < b.doc_id) := by
  unfold matchList
  refine List.Pairwise.filterMap _ ?_ (documents_pairwise_docid hwf)
  intro d1 d2 hlt b1 hb1 b2 hb2
  by_cases h1 : 0 < (termSet q ∩ termSet d1.content).card
  · by_cases h2 : 0 < (termSet q ∩ termSet d2.content).card
    · rw [if_pos h1] at hb1
      rw [if_pos h2] at hb2
      have e1 : b1.doc_id = d1.doc_id := by
        cases hb1; rfl
      have e2 : b2.doc_id = d2.doc_id := by
        cases hb2; rfl
      rw [e1, e2]
      exact hlt
    · rw [if_neg h2] at hb2
      cases hb2
  · rw [if_neg h1] at hb1
    cases hb1

lemma matchList_nodup {vs : VectorStore} (q : PyStr) (hwf : vs.wellFormed) :
    (matchList vs q).Nodup :=
  (matchList_pairwise_docid q hwf).imp
    (fun h e => by rw [e] at h; exact lt_irrefl _ h)

lemma search_pairwise_tiebreak (vs : VectorStore) (q : PyStr) (k : Nat)
    (hwf : vs.wellFormed) :
    (vs.search q (k : Int)).Pairwise
      (fun a b => a.score = b.score → a.doc_id < b.doc_id) := by
  have hmat := matchList_pairwise_docid q hwf
  have hnd := matchList_nodup q hwf
  have hndS : ((matchList vs q).insertionSort scoreGE).Nodup :=
    ((List.perm_insertionSort scoreGE (matchList vs q)).nodup_iff).2 hnd
  apply List.pairwise_iff_forall_sublist.2
  intro a b hab
  intro hscore
  have habS : List.Sublist [a, b] ((matchList vs q).insertionSort scoreGE) := by
    rw [search_natCast_eq_take] at hab
    exact hab.trans (List.take_sublist _ _)
  have haM : a ∈ matchList vs q :=
    (List.mem_insertionSort scoreGE).1 (habS.subset (by simp))
  have hbM : b ∈ matchList vs q :=
    (List.mem_insertionSort scoreGE).1 (habS.subset (by simp))
  by_contra hlt
  have hne : a ≠ b := by
    intro e
    subst e
    have : ([a, a] : List ScoredResult).Nodup := List.Nodup.sublist habS hndS
    simp at this
  rcases pair_sublist_of_mem_mem haM hbM hne with h | h
  · exact hlt (List.pairwise_iff_forall_sublist.1 hmat h)
  · have hba : scoreGE b a := le_of_eq hscore
    have hbaS : List.Sublist [b, a] ((matchList vs q).insertionSort scoreGE) :=
      List.pair_sublist_insertionSort hba h
    exact hne (eq_of_pair_sublists_nodup hndS habS hbaS)

/-- **C8.** For every store satisfying the doc_id invariant, every query and
every top-k count, `search` returns results sorted in non-increasing score
order, truncated to at most `top_k` entries; when at most `top_k` documents
match, all matches are returned (a permutation of the match list); and
results with equal score appear in doc_id-ascending (insertion) order — in
particular documents inserted in order A, B, C with equal scores come back
in that order. -/
theorem C8_stable_topk (vs : VectorStore) (q : PyStr) (k : Nat)
    (hwf : vs.wellFormed) :
    (vs.search q (k : Int)).Pairwise scoreGE ∧
    (vs.search q (k : Int)).length ≤ k ∧
    ((matchList vs q).length ≤ k →
      List.Perm (vs.search q (k : Int)) (matchList vs q)) ∧
    (vs.search q (k : Int)).Pairwise
      (fun a b => a.score = b.score → a.doc_id < b.doc_id) := by
  refine ⟨?_, ?_, fun hlen => ?_, search_pairwise_tiebreak vs q k hwf⟩
  · rw [search_natCast_eq_take]
    exact List.Pairwise.sublist (List.take_sublist _ _)
      (List.sorted_insertionSort scoreGE (matchList vs q))
  · rw [search_natCast_eq_take]
    exact List.length_take_le _ _
  · rw [search_natCast_eq_take]
    rw [List.take_of_length_le (by rw [List.length_insertionSort]; exact hlen)]
    exact List.perm_insertionSort scoreGE (matchList vs q)

/-- Three equal-score documents inserted in order A, B, C, for the C8
witness (query `"x"` gives each the Jaccard score 1/2). -/
def vsE : VectorStore :=
  { documents := [ { content := "x a".data, metadata := [], doc_id := 0 },
                   { content := "x b".data, metadata := [], doc_id := 1 },
                   { content := "x c".data, metadata := [], doc_id := 2 } ] }

/-- Witness for C8 at the three-document store `vsE` with query `"x"` and
`top_k = 5`. -/
theorem C8_witness :
    (vsE.search "x".data ((5 : Nat) : Int)).Pairwise scoreGE ∧
    (vsE.search "x".data ((5 : Nat) : Int)).length ≤ 5 ∧
    ((matchList vsE "x".data).length ≤ 5 →
      List.Perm (vsE.search "x".data ((5 : Nat) : Int)) (matchList vsE "x".data)) ∧
    (vsE.search "x".data ((5 : Nat) : Int)).Pairwise
      (fun a b => a.score = b.score → a.doc_id < b.doc_id) :=
  C8_stable_topk vsE "x".data 5 (by decide)

/-! ## C1, C2, C10: the reasoning loop -/

lemma thinkLoop_succ_some (g : GenOracle) (reg : ToolRegistry) (n : Nat)
    (r : PyStr) (st : AgentState) (c : ToolCall)
    (hc : parse_tool_call r = some c) :
    thinkLoop g reg (n + 1) r st =
      ((thinkLoop g reg n (reasonStep g reg r)
          (Agent.execute_tool_step reg c.tool c.params).2).1,
       (thinkLoop g reg n (reasonStep g reg r)
          (Agent.execute_tool_step reg c.tool c.params).2).2.1,
       c :: (thinkLoop g reg n (reasonStep g reg r)
          (Agent.execute_tool_step reg c.tool c.params).2).2.2) := by
  conv_lhs => unfold thinkLoop
  rw [hc]
  unfold reasonStep
  rw [hc]
  exact rfl

lemma thinkLoop_all_some (g : GenOracle) (reg : ToolRegistry) :
    ∀ (n : Nat) (r0 : PyStr) (st : AgentState),
      (∀ k, k < n → (parse_tool_call (responseChain g reg r0 k)).isSome = true) →
      (thinkLoop g reg n r0 st).1 = responseChain g reg r0 n ∧
      (thinkLoop g reg n r0 st).2.2.length = n := by
  intro n
  induction n with
  | zero => intro r0 st _; exact ⟨rfl, rfl⟩
  | succ n ih =>
    intro r0 st hall
    have h0 : (parse_tool_call r0).isSome = true := hall 0 (Nat.succ_pos n)
    obtain ⟨c, hc⟩ := Option.isSome_iff_exists.1 h0
    have hall' : ∀ k, k < n →
        (parse_tool_call (responseChain g reg (reasonStep g reg r0) k)).isSome
          = true := fun k hk => hall (k + 1) (by omega)
    have IH := ih (reasonStep g reg r0)
      (Agent.execute_tool_step reg c.tool c.params).2 hall'
    rw [thinkLoop_succ_some g reg n r0 st c hc]
    refine ⟨IH.1, ?_⟩
    simp only [List.length_cons, IH.2]

lemma think_eq (g : GenOracle) (a : Agent) (query : PyStr) (mi : Option Int)
    (t1 t2 : PyStr) :
    Agent.think g a query mi t1 t2 =
      ((thinkLoop g a.tool_registry (mi.getD a.max_iterations).toNat
          (g.generate ((a.afterUserMsg query t1).prepare_context query) query)
          AgentState.THINKING).1,
       { a.afterUserMsg query t1 with
         state := AgentState.COMPLETE,
         memory := (a.afterUserMsg query t1).memory.map
           (fun m => m.add_message "assistant".data
             (thinkLoop g a.tool_registry (mi.getD a.max_iterations).toNat
               (g.generate ((a.afterUserMsg query t1).prepare_context query) query)
               AgentState.THINKING).1 t2 none) }) := rfl

/-- **C1.** For every query, bound and oracle, if the parse of every response
produced during the loop yields a tool call, then `think` executes exactly
`max_iterations` tool calls and then stops — never more — and reaching the
bound is a normal termination: `think` returns the last produced response
(the response after `max_iterations` continue-reasoning rounds) and leaves
the agent in the `COMPLETE` state, not an error. -/
theorem C1_iteration_bound (g : GenOracle) (a : Agent) (query : PyStr)
    (mi : Nat) (t1 t2 : PyStr)
    (hall : ∀ k, k < mi →
      (parse_tool_call (responseChain g a.tool_registry
        (g.generate ((a.afterUserMsg query t1).prepare_context query) query)
        k)).isSome = true) :
    (Agent.think g a query (some (mi : Int)) t1 t2).1 =
      responseChain g a.tool_registry
        (g.generate ((a.afterUserMsg query t1).prepare_context query) query)
        mi ∧
    (thinkLoop g a.tool_registry mi
        (g.generate ((a.afterUserMsg query t1).prepare_context query) query)
        AgentState.THINKING).2.2.length = mi ∧
    (Agent.think g a query (some (mi : Int)) t1 t2).2.state =
      AgentState.COMPLETE := by
  have hbound : ((some ((mi : Int))).getD a.max_iterations).toNat = mi := by
    simp
  have hloop := thinkLoop_all_some g a.tool_registry mi
    (g.generate ((a.afterUserMsg query t1).prepare_context query) query)
    AgentState.THINKING hall
  refine ⟨?_, hloop.2, ?_⟩
  · rw [think_eq, hbound]
    exact hloop.1
  · rw [think_eq]

/-- The generation oracle for the C1 witness: every generated response
carries a tool-call marker, and continue-reasoning returns the response
unchanged (as the source's placeholder does). -/
def gC1 : GenOracle where
  generate := fun _ _ => "[TOOL_CALL] t: a=b [/TOOL_CALL]".data
  continueReasoning := fun current _ => current

/-- Witness for C1: a fresh agent, the always-calling oracle `gC1`, and a
bound of 2 — the loop executes exactly 2 tool calls. -/
theorem C1_witness :
    (Agent.think gC1 Agent.init "q".data (some ((2 : Nat) : Int)) [] []).1 =
      responseChain gC1 (Agent.init).tool_registry
        (gC1.generate (((Agent.init).afterUserMsg "q".data []).prepare_context
          "q".data) "q".data) 2 ∧
    (thinkLoop gC1 (Agent.init).tool_registry 2
        (gC1.generate (((Agent.init).afterUserMsg "q".data []).prepare_context
          "q".data) "q".data)
        AgentState.THINKING).2.2.length = 2 ∧
    (Agent.think gC1 Agent.init "q".data (some ((2 : Nat) : Int)) [] []).2.state =
      AgentState.COMPLETE :=
  C1_iteration_bound gC1 Agent.init "q".data 2 [] [] (by decide)

/-- **C2.** Tool-level failures never escape `think`: a failing dispatch
(including a tool name absent from the registry, which raises
`ValueError("Tool '<name>' not found")`) is caught and converted into the
literal result text `"Tool execution error: <message>"` with the transient
`ERROR` state; the loop then feeds that text into the next
continue-reasoning round and keeps going; and `think` still returns a final
response, ending in the `COMPLETE` state. -/
theorem C2_tool_failure_handling (g : GenOracle) (reg : ToolRegistry)
    (st : AgentState) (name name2 : PyStr) (kwargs kwargs2 : PyDict PyStr)
    (msg : PyStr) (r : PyStr) (c : ToolCall) (n : Nat)
    (a : Agent) (query : PyStr) (mi : Option Int) (t1 t2 : PyStr) :
    (reg.execute_tool name kwargs = Except.error msg →
      Agent.execute_tool_step reg name kwargs =
        ("Tool execution error: ".data ++ msg, AgentState.ERROR)) ∧
    (dictGet reg.tools name2 = none →
      reg.execute_tool name2 kwargs2 =
        Except.error (toolNotFoundMsg name2)) ∧
    (parse_tool_call r = some c →
      reg.execute_tool c.tool c.params = Except.error msg →
      thinkLoop g reg (n + 1) r st =
        ((thinkLoop g reg n
            (g.continueReasoning r ("Tool execution error: ".data ++ msg))
            AgentState.ERROR).1,
         (thinkLoop g reg n
            (g.continueReasoning r ("Tool execution error: ".data ++ msg))
            AgentState.ERROR).2.1,
         c :: (thinkLoop g reg n
            (g.continueReasoning r ("Tool execution error: ".data ++ msg))
            AgentState.ERROR).2.2)) ∧
    (Agent.think g a query mi t1 t2).2.state = AgentState.COMPLETE := by
  refine ⟨fun h => ?_, fun h => ?_, fun hp he => ?_, ?_⟩
  · unfold Agent.execute_tool_step
    rw [h]
  · unfold ToolRegistry.execute_tool ToolRegistry.get_tool
    rw [h]
    exact rfl
  · have h1 : Agent.execute_tool_step reg c.tool c.params =
        ("Tool execution error: ".data ++ msg, AgentState.ERROR) := by
      unfold Agent.execute_tool_step
      rw [he]
    have h3 : toolResultText reg c = "Tool execution error: ".data ++ msg := by
      unfold toolResultText
      rw [h1]
    have h2 : reasonStep g reg r =
        g.continueReasoning r ("Tool execution error: ".data ++ msg) := by
      unfold reasonStep
      rw [hp]
      show g.continueReasoning r (toolResultText reg c) = _
      rw [h3]
    rw [thinkLoop_succ_some g reg n r st c hp, h1, h2]
  · rw [think_eq]

/-- A tool whose capability always raises, for the C2 witness. -/
def toolBoom : Tool where
  name := "boom".data
  description := "always fails".data
  tool_type := ToolType.CUSTOM
  func := fun _ => Except.error "fail".data
  parameters := []

/-- A registry holding only the failing tool `boom`. -/
def regBoom : ToolRegistry := ToolRegistry.register { tools := [] } toolBoom

/-- Witness for C2: the failing tool `boom` yields the literal error text and
the `ERROR` state; an absent name `missing` raises the not-found message; the
loop step feeds the error text back into continue-reasoning; and `think`
ends `COMPLETE`. -/
theorem C2_witness :
    (Agent.execute_tool_step regBoom "boom".data [("x".data, "1".data)] =
      ("Tool execution error: ".data ++ "fail".data, AgentState.ERROR)) ∧
    (regBoom.execute_tool "missing".data [] =
      Except.error (toolNotFoundMsg "missing".data)) ∧
    (thinkLoop defaultOracle regBoom (0 + 1)
        "[TOOL_CALL] boom: x=1 [/TOOL_CALL]".data AgentState.THINKING =
      ((thinkLoop defaultOracle regBoom 0
          (defaultOracle.continueReasoning "[TOOL_CALL] boom: x=1 [/TOOL_CALL]".data
            ("Tool execution error: ".data ++ "fail".data))
          AgentState.ERROR).1,
       (thinkLoop defaultOracle regBoom 0
          (defaultOracle.continueReasoning "[TOOL_CALL] boom: x=1 [/TOOL_CALL]".data
            ("Tool execution error: ".data ++ "fail".data))
          AgentState.ERROR).2.1,
       ({ tool := "boom".data, params := [("x".data, "1".data)] } : ToolCall) ::
         (thinkLoop defaultOracle regBoom 0
            (defaultOracle.continueReasoning "[TOOL_CALL] boom: x=1 [/TOOL_CALL]".data
              ("Tool execution error: ".data ++ "fail".data))
            AgentState.ERROR).2.2)) ∧
    (Agent.think defaultOracle Agent.init "q".data none [] []).2.state =
      AgentState.COMPLETE := by
  have h := C2_tool_failure_handling defaultOracle regBoom AgentState.THINKING
    "boom".data "missing".data [("x".data, "1".data)] [] "fail".data
    "[TOOL_CALL] boom: x=1 [/TOOL_CALL]".data
    { tool := "boom".data, params := [("x".data, "1".data)] } 0
    Agent.init "q".data none [] []
  exact ⟨h.1 (by rfl), h.2.1 (by rfl), h.2.2.1 (by decide) (by rfl), h.2.2.2⟩

/-! ## C10: think's frame -/

/-- **C10.** `think` mutates only the Message Log and the `AgentState` (the
generation seams and tool capabilities are pure functions in this embedding,
matching the claim's purity assumption): across a `think` call the Tool
Registry mapping, the RAG pipeline's Document Store, and the agent's
name/model/iteration-bound configuration are unchanged; the final state is
`COMPLETE`; and when memory is enabled exactly two messages are appended —
the user query before the loop and the final response after it. -/
theorem C10_think_frame (g : GenOracle) (a : Agent) (query : PyStr)
    (mi : Option Int) (t1 t2 : PyStr) :
    (Agent.think g a query mi t1 t2).2.tool_registry = a.tool_registry ∧
    (Agent.think g a query mi t1 t2).2.rag_pipeline = a.rag_pipeline ∧
    (Agent.think g a query mi t1 t2).2.name = a.name ∧
    (Agent.think g a query mi t1 t2).2.model = a.model ∧
    (Agent.think g a query mi t1 t2).2.max_iterations = a.max_iterations ∧
    (Agent.think g a query mi t1 t2).2.state = AgentState.COMPLETE ∧
    (Agent.think g a query mi t1 t2).2.memory = a.memory.map
      (fun m => (m.add_message "user".data query t1 none).add_message
        "assistant".data (Agent.think g a query mi t1 t2).1 t2 none) := by
  refine ⟨rfl, rfl, rfl, rfl, rfl, rfl, ?_⟩
  rw [think_eq]
  show (a.afterUserMsg query t1).memory.map _ = _
  unfold Agent.afterUserMsg
  rw [Option.map_map]
  rfl
